import Mathlib

/-!
Verification development for the megatools JavaScript core
(`js/api.js`, `js/session.js`).

Shallow embedding conventions:
* JavaScript byte buffers (`Duktape.Buffer`) and strings are both modelled as
  `List Nat` (one entry per byte / char code).
* The external crypto / codec primitives (`C.aes_enc`, `C.sha256_digest`,
  `C.ub64enc`, `C.buftojsonstring`, ...) are out-of-scope collaborators of the
  repository.  They are bundled in a `CryptoPrim` parameter structure; theorems
  assume only the point-wise contracts the spec gives them (e.g. that a
  decrypt undoes an encrypt at the particular value used).
* AES-CTR is a stream cipher: it XORs the data with a keystream that depends
  only on key, nonce and byte position.  The keystream byte oracle is the
  `ctr_ks` field of `CryptoPrim`; `ctrXor` applies it, mirroring
  `C.aes_ctr(key, nonce, 0, data)`.
* Fallible JS values (`null` / `undefined`) are `Option`; a thrown JS error
  (TypeError / ReferenceError / SyntaxError) is `Except.error` of a `JsErr`.
-/

namespace Megatools

/-- JS byte buffers: one `Nat` per byte. -/
abbrev Bytes := List Nat

/-- JS strings, modelled as their list of char codes. -/
abbrev Str := List Nat

/-- JS exception kinds that the embedded code can raise. -/
inductive JsErr where
  | typeError
  | referenceError
  | syntaxError
deriving DecidableEq

/-- Decrypted node-attribute object.  The megatools core only ever reads the
`n` (name) member of the attribute JSON, so the model keeps just that field. -/
structure Attrs where
  n : Str
deriving DecidableEq

/-- The external crypto / codec primitives consumed by the core (the
crypto-primitives facade of the spec).  All are opaque to the repository sources; the
theorems only use the contracts stated in the spec, as explicit hypotheses. -/
structure CryptoPrim where
  aes_key_from_password : Str → Bytes
  aes_enc : Bytes → Bytes → Bytes
  aes_dec : Bytes → Bytes → Bytes
  aes_enc_cbc : Bytes → Bytes → Bytes
  aes_dec_cbc : Bytes → Bytes → Option Bytes
  sha256 : Bytes → Bytes
  ub64enc : Bytes → Str
  ub64dec : Str → Bytes
  /-- AES-CTR keystream byte at a position, for a key and 8-byte nonce. -/
  ctr_ks : Bytes → Bytes → Nat → Nat
  file_node_key_unpack : Bytes → Bytes
  buftojsonstring : Bytes → Option Bytes
  json_parse_attrs : Bytes → Option Attrs
  json_stringify_attrs : Attrs → Bytes

/-- XOR a list with the keystream `g`, starting at stream position `i`:
the body of `C.aes_ctr(key, nonce, 0, data)`. -/
def ctrXor (g : Nat → Nat) : Nat → List Nat → List Nat
  | _, [] => []
  | i, b :: rest => (b ^^^ g i) :: ctrXor g (i + 1) rest

/-- XOR position `i` of a list with `d` (a single-byte tamper of a stored
file); out-of-range positions leave the list unchanged. -/
def xorAt : List Nat → Nat → Nat → List Nat
  | [], _, _ => []
  | b :: rest, 0, d => (b ^^^ d) :: rest
  | b :: rest, i + 1, d => b :: xorAt rest i d

/-- Does `pat` occur at the head of the second list? -/
def leadMatch : List Nat → List Nat → Bool
  | [], _ => true
  | _ :: _, [] => false
  | a :: as, b :: bs => a == b && leadMatch as bs

/-- Does `pat` occur as a contiguous subsequence?  (JS `String.match` with a
regex that is a literal character sequence.) -/
def hasSeq (pat : List Nat) : List Nat → Bool
  | [] => pat.isEmpty
  | b :: rest => leadMatch pat (b :: rest) || hasSeq pat rest

/-- `C.alignbuf(buf, n, true)`: pad `buf` up to a multiple of `n` with
(externally supplied) random bytes `rand`. -/
def alignbuf (buf : List Nat) (n : Nat) (rand : List Nat) : List Nat :=
  buf ++ rand.take ((n - buf.length % n) % n)

/- ===== session.js: encrypted session-blob envelope ===== -/

/-- Nonce used by `loadSessionFile` / `saveSessionFile`: first 8 bytes of
`sha256(username + password + name)` (session.js lines 80 and 99). -/
def sessionNonce (P : CryptoPrim) (username password name : Str) : Bytes :=
  (P.sha256 (username ++ password ++ name)).take 8

/-- The AES-CTR keystream for a session file: key is the password key `pk`,
nonce as above, counter starting at 0. -/
def sessionKs (P : CryptoPrim) (username password name : Str) : Nat → Nat :=
  P.ctr_ks (P.aes_key_from_password password) (sessionNonce P username password name)

/-- `Session.getSessionFilePath` (session.js lines 66-71), minus the
temporary-directory part which is an external collaborator. -/
def getSessionFilePath (P : CryptoPrim) (username password name : Str) : Str :=
  (P.ub64enc (P.aes_enc_cbc (P.aes_key_from_password password)
    (P.sha256 (username ++ password ++ name)))).take 30

/-- `Session.saveSessionFile` (session.js lines 95-105): produce the encrypted
file contents `aes_ctr(pk, nonce, 0, sha256(payload) ++ payload)`. -/
def saveSessionFile (P : CryptoPrim) (username password name : Str)
    (plain_payload : Bytes) : Bytes :=
  ctrXor (sessionKs P username password name) 0
    (P.sha256 plain_payload ++ plain_payload)

/-- `Session.loadSessionFile` (session.js lines 73-93).  `stored` is the result
of `C.file_read`: `none` when the file is absent.  Decrypt, split the 32-byte
digest prefix off, and reject unless it matches the SHA-256 of the rest. -/
def loadSessionFile (P : CryptoPrim) (username password name : Str)
    (stored : Option Bytes) : Option Bytes :=
  match stored with
  | none => none
  | some data =>
    if P.sha256 ((ctrXor (sessionKs P username password name) 0 data).drop 32)
        = (ctrXor (sessionKs P username password name) 0 data).take 32 then
      some ((ctrXor (sessionKs P username password name) 0 data).drop 32)
    else
      none

/- ===== api.js: encrypted node-attribute codec ===== -/

/-- The four magic bytes `MEGA`. -/
def megaStr : Bytes := [77, 69, 71, 65]

/-- The magic bytes `MEGA` followed by an opening brace, byte 123 (the
prefix the decoder checks). -/
def megaBrace : Bytes := [77, 69, 71, 65, 123]

/-- `MegaAPI.makeNodeAttrs` (api.js lines 797-799):
`ub64enc(aes_enc_cbc(nk, alignbuf(MEGA + JSON.stringify(attrs), 16, true)))`.
`rand` supplies the random padding bytes `C.alignbuf` appends. -/
def makeNodeAttrs (P : CryptoPrim) (rand : Bytes) (nk : Bytes) (attrs : Attrs) : Str :=
  P.ub64enc (P.aes_enc_cbc nk
    (alignbuf (megaStr ++ P.json_stringify_attrs attrs) 16 rand))

/-- `MegaAPI.decNodeAttrs` (api.js lines 801-812): base64-decode, CBC-decrypt,
require the `megaBrace` byte prefix, then extract the JSON tail with
`C.buftojsonstring` — a falsy extraction (the tail is not valid JSON text)
returns null.  A truthy extraction feeds `return JSON.parse(json)`: if that
string nevertheless does not parse, `JSON.parse` throws a SyntaxError which
propagates out of `decNodeAttrs`, modelled as `Except.error` (the same chain
as in `importAttrs`). -/
def decNodeAttrs (P : CryptoPrim) (nk : Bytes) (a : Str) :
    Except JsErr (Option Attrs) :=
  match P.aes_dec_cbc nk (P.ub64dec a) with
  | none => .ok none
  | some ab =>
    if ab.take 5 = megaBrace then
      match P.buftojsonstring (ab.drop 4) with
      | none => .ok none
      | some js =>
        match P.json_parse_attrs js with
        | none => .error .syntaxError
        | some att => .ok (some att)
    else
      .ok none

/- ===== api.js: API transaction engine ===== -/

/-- `MegaAPI.errorMessages` (api.js lines 94-117), in source order. -/
def errorMessages : List (String × String) :=
  [("EINTERNAL", "Internal error"),
   ("EARGS", "Invalid argument"),
   ("EAGAIN", "Request failed, retrying"),
   ("ERATELIMIT", "Rate limit exceeded"),
   ("EFAILED", "Transfer failed"),
   ("ETOOMANY", "Too many concurrent connections or transfers"),
   ("ERANGE", "Out of range"),
   ("EEXPIRED", "Expired"),
   ("ENOENT", "Not found"),
   ("ECIRCULAR", "Circular linkage detected"),
   ("EACCESS", "Access denied"),
   ("EEXIST", "Already exists"),
   ("EINCOMPLETE", "Incomplete"),
   ("EKEY", "Invalid key/integrity check failed"),
   ("ESID", "Bad session ID"),
   ("EBLOCKED", "Blocked"),
   ("EOVERQUOTA", "Over quota"),
   ("ETEMPUNAVAIL", "Temporarily not available"),
   ("ETOOMANYCONNECTIONS", "Connection overflow"),
   ("EWRITE", "Write error"),
   ("EREAD", "Read error"),
   ("EAPPKEY", "Invalid application key")]

/-- `MegaAPI.errorCodes` (api.js lines 119-142), in source order. -/
def errorCodes : List (String × Int) :=
  [("EINTERNAL", -1),
   ("EARGS", -2),
   ("EAGAIN", -3),
   ("ERATELIMIT", -4),
   ("EFAILED", -5),
   ("ETOOMANY", -6),
   ("ERANGE", -7),
   ("EEXPIRED", -8),
   ("ENOENT", -9),
   ("ECIRCULAR", -10),
   ("EACCESS", -11),
   ("EEXIST", -12),
   ("EINCOMPLETE", -13),
   ("EKEY", -14),
   ("ESID", -15),
   ("EBLOCKED", -16),
   ("EOVERQUOTA", -17),
   ("ETEMPUNAVAIL", -18),
   ("ETOOMANYCONNECTIONS", -19),
   ("EWRITE", -20),
   ("EREAD", -21),
   ("EAPPKEY", -22)]

/-- `MegaAPI.getErrorName` (api.js lines 144-153): first key in `errorCodes`
whose value equals `num`, else `EUNKNOWN`. -/
def getErrorName (num : Int) : String :=
  match errorCodes.find? (fun p => p.2 == num) with
  | some p => p.1
  | none => "EUNKNOWN"

/-- `MegaAPI.getErrorMessage` (api.js lines 155-157):
`errorMessages[name]`, falling back to the Unknown-error text. -/
def getErrorMessage (name : String) : String :=
  match errorMessages.find? (fun p => p.1 == name) with
  | some p => p.2
  | none => "Unknown error"

/-- One element of a parsed JSON response array: either a number or some
other (opaque) success value. -/
inductive RVal where
  | num (n : Int)
  | obj (tag : Nat)
deriving DecidableEq

/-- Shape of a parsed whole-batch JSON response body. -/
inductive Response where
  | num (n : Int)
  | arr (rs : List RVal)
  | other
deriving DecidableEq

/-- One transport event delivered to an HTTP attempt: `onload` with the parsed
body, or `onerror` with a transport code and message. -/
inductive HttpEvent where
  | onload (r : Response)
  | onerror (code : String) (msg : String)
deriving DecidableEq

/-- Final outcome of a `callMulti` deferred.  `hung` marks the states where
the source neither resolves nor rejects (no transport event, or the backoff
ceiling was reached so no further attempt is scheduled).  The rejection
message is optional because `defer.reject(empty)` passes no message. -/
inductive CallOutcome where
  | resolved (rs : List RVal)
  | rejected (code : String) (msg : Option String)
  | hung
deriving DecidableEq

/-- The `doRequest` retry loop of `MegaAPI.callMulti` (api.js lines 187-231).
`evs` lists the responses of the transport to the successive HTTP attempts;
`t` is the current `nextTimeout` (initially 10000 ms).  Returns the list of
backoff delays actually slept plus the final outcome:
* `onload` of a number rejects with the mapped error name and message;
* `onload` of an array resolves; any other body rejects with code empty;
* `onerror` with code `busy`/`no_response` schedules a retry after `t` ms and
  doubles `t`, but only while `t < 120 * 1000 * 1000`;
* any other `onerror` rejects with the code and message verbatim. -/
def runRequest : List HttpEvent → Nat → List Nat × CallOutcome
  | [], _ => ([], .hung)
  | .onload r :: _, _ =>
    ([], match r with
      | .num n => .rejected (getErrorName n) (some (getErrorMessage (getErrorName n)))
      | .arr rs => .resolved rs
      | .other => .rejected "empty" none)
  | .onerror c m :: rest, t =>
    if c = "busy" ∨ c = "no_response" then
      if t < 120 * 1000 * 1000 then
        (t :: (runRequest rest (2 * t)).1, (runRequest rest (2 * t)).2)
      else ([], .hung)
    else ([], .rejected c (some m))

/-- Outcome delivered to a single continuation of a batch. -/
inductive PosOut where
  | resolvedP (r : RVal)
  | rejectedP (code : String) (msg : Option String)
  | pendingP
deriving DecidableEq

/-- The per-position demultiplexer of `MegaAPI.CallBatch.send` (api.js lines
839-849): a negative number rejects with the mapped name and its message,
anything else resolves. -/
def demuxOne (r : RVal) : PosOut :=
  match r with
  | .num k =>
    if k < 0 then .rejectedP (getErrorName k) (some (getErrorMessage (getErrorName k)))
    else .resolvedP r
  | .obj _ => .resolvedP r

/-- What each of the `n` continuations of a batch receives, given the
`callMulti` outcome of the batch (api.js lines 838-852): positional demux on
success, the
same `(code, msg)` for everyone on failure. -/
def batchOutcomes (n : Nat) : CallOutcome → List PosOut
  | .resolved rs => rs.map demuxOne
  | .rejected c m => List.replicate n (.rejectedP c m)
  | .hung => List.replicate n .pendingP

/-- `MegaAPI.CallBatch.send` composed with the `callMulti` transport loop. -/
def batchFlush (n : Nat) (evs : List HttpEvent) : List PosOut :=
  batchOutcomes n (runRequest evs 10000).2

/-- Mutable engine state relevant to the call-id sequencer. -/
structure ApiState where
  callId : Nat
deriving DecidableEq

/-- The ids carried by the HTTP requests of one logical batch: `callMulti`
builds the URL (with `me.callId` freshly incremented) once, before
`doRequest`, so the first attempt and every retry send the same id
(api.js lines 178-180 and 187-229). -/
def sentIds (st : ApiState) (evs : List HttpEvent) : List Nat :=
  List.replicate ((runRequest evs 10000).1.length + 1) (st.callId + 1)

/-- `MegaAPI.callMulti` as a state transformer (api.js lines 174-233):
increments `callId` once, then runs the request/retry loop. -/
def callMultiStep (st : ApiState) (evs : List HttpEvent) :
    ApiState × (List Nat × (List Nat × CallOutcome)) :=
  (⟨st.callId + 1⟩, (sentIds st evs, runRequest evs 10000))

/-- A session-long sequence of `callMulti` batches; returns the final state
and the id lists of each batch in order. -/
def runBatches (st : ApiState) : List (List HttpEvent) → ApiState × List (List Nat)
  | [] => (st, [])
  | evs :: rest =>
    ((runBatches (callMultiStep st evs).1 rest).1,
     (callMultiStep st evs).2.1 :: (runBatches (callMultiStep st evs).1 rest).2)

/- ===== api.js: TSID check and loginEphemeral ===== -/

/-- `MegaAPI.tsOk` (api.js lines 293-305): base64-decode the TSID, require at
least 32 bytes, and compare the last 16 bytes against AES-ECB of the first 16
bytes under `mk`. -/
def tsOk (P : CryptoPrim) (ts : Str) (mk : Bytes) : Bool :=
  if (P.ub64dec ts).length < 32 then false
  else decide (((P.ub64dec ts).drop ((P.ub64dec ts).length - 16)).take 16
    = P.aes_enc mk ((P.ub64dec ts).take 16))

/-- The response fields of the `us` call used by `loginEphemeral`. -/
structure UsResponse where
  k : Str
  tsid : Str
deriving DecidableEq

/-- Outcome of a login response handler. -/
inductive LoginResult where
  | ok (sid : Str) (mk : Bytes)
  | err (e : JsErr)
deriving DecidableEq

/-- The response handler of `MegaAPI.loginEphemeral` (api.js lines 318-337).
On TSID failure the source evaluates `defer.reject(invalid_tsid, ...)`, but
no `defer` is bound in any enclosing scope of that callback (the only `defer`
lives inside the closure of `callMulti` itself; `login`, api.js lines 364 and 369,
shares the slip), so the JS engine raises `ReferenceError: defer is not
defined` there rather than rejecting the operation. -/
def loginEphemeralHandler (P : CryptoPrim) (password : Str) (res : UsResponse) :
    LoginResult :=
  if tsOk P res.tsid (P.aes_dec (P.aes_key_from_password password) (P.ub64dec res.k))
  then .ok res.tsid (P.aes_dec (P.aes_key_from_password password) (P.ub64dec res.k))
  else .err .referenceError

/- ===== session.js: session open / freshness ===== -/

/-- The three branches `Session.open` can take. -/
inductive OpenFlow where
  | resolveDirect
  | checkSaved
  | fullLogin
deriving DecidableEq

/-- `Session.isFresh` (session.js lines 142-144) with `timeout = 3600`:
`this.data.saved && this.data.saved > now - this.timeout * 1000`.
`saved` is `none` when the field is absent; JS treats a stored `0` as falsy,
hence the explicit first conjunct.  (JS evaluates `saved > now - 3600000`
over integers; with the first conjunct in force the truncated `Nat`
subtraction used here agrees with it.) -/
def isFresh (saved : Option Nat) (now : Nat) : Bool :=
  match saved with
  | none => false
  | some s => decide (s ≠ 0) && decide (now - 3600 * 1000 < s)

/-- The branch structure of `Session.open` (session.js lines 184-198): a
successfully loaded blob that is fresh (and no `forceCheck`) resolves
directly; a loaded stale one re-uses the saved sid and tries `getUser`; a
failed load runs the full login flow. -/
def openFlow (loadOk : Bool) (saved : Option Nat) (now : Nat) (forceCheck : Bool) :
    OpenFlow :=
  if loadOk then
    if isFresh saved now && !forceCheck then .resolveDirect else .checkSaved
  else .fullLogin

/-- The HTTP API calls each `open` branch starts with: the fresh path issues
none at all; the stale path starts with `getUser` (request `ug`); the login flow
starts with `login`/`loginEphemeral` (request `us`) followed by `getUser`. -/
def openHttpCalls : OpenFlow → List String
  | .resolveDirect => []
  | .checkSaved => ["ug"]
  | .fullLogin => ["us", "ug"]

/- ===== session.js: Filesystem materialiser ===== -/

/-- `NodeType` (session.js lines 230-239). -/
def NodeType.FILE : Int := 0
def NodeType.FOLDER : Int := 1
def NodeType.ROOT : Int := 2
def NodeType.INBOX : Int := 3
def NodeType.RUBBISH : Int := 4
def NodeType.CONTACT : Int := 8
def NodeType.NETWORK : Int := 9
def NodeType.TOP : Int := 9

/-- Byte string `*TOP*`. -/
def topStr : Str := [42, 84, 79, 80, 42]

/-- Byte string `*NETWORK`. -/
def networkStr : Str := [42, 78, 69, 84, 87, 79, 82, 75]

/-- Byte string `undefined` — the property key JS produces when the `h`
field of a node is absent and `this.nodes[node.handle]` coerces it. -/
def undefStr : Str := [117, 110, 100, 101, 102, 105, 110, 101, 100]

/-- Byte string of a single dot. -/
def dotStr : Str := [46]

/-- Byte string of two dots. -/
def dotdotStr : Str := [46, 46]

/-- The literal character sequence of the Windows name regex of session.js
line 317: slash, backslash, less-than, greater-than, colon, double-quote,
pipe, question mark, star.  Every special character in that regex is escaped
or literal, so the regex matches exactly this contiguous nine-character
sequence — it is not a character class. -/
def winBadSeq : Bytes := [47, 92, 60, 62, 58, 34, 124, 63, 42]

/-- Byte string `Rubbish`. -/
def rubbishStr : Str := [82, 117, 98, 98, 105, 115, 104]

/-- Byte string `Inbox`. -/
def inboxStr : Str := [73, 110, 98, 111, 120]

/-- Byte string `Root`. -/
def rootStr : Str := [82, 111, 111, 116]

/-- Byte string `Contacts`. -/
def contactsStr : Str := [67, 111, 110, 116, 97, 99, 116, 115]

/-- The session state `Filesystem` reads (`this.session`): user handle,
master key, wrapped private key, exported-folder flag. -/
structure SessData where
  uh : Option Str
  /-- The master key (`mk` in the source; renamed because `mk` collides with
  the structure constructor name in Lean). -/
  mkey : Bytes
  privk : Option Bytes
  isExportedFolder : Bool
deriving DecidableEq

/-- One `<handle>:<ciphertext>` match of the node-key regex of `importNode`
(session.js line 275), with the ciphertext already base64-decoded as the
source does per pair. -/
structure KeyPair where
  kh : Str
  kd : Bytes
deriving DecidableEq

/-- A raw node object of an `f` response, as read by `importNode`.  The `k`
field is modelled as the list of regex matches the source extracts from the
key string. -/
structure NodeData where
  t : Option Int
  h : Option Str
  p : Option Str
  su : Option Str
  u : Option Str
  s : Option Int
  ts : Option Int
  k : Option (List KeyPair)
  a : Option Str
  sk : Option Str
deriving DecidableEq

/-- A materialised filesystem node (the object `importNode` builds). -/
structure Node where
  type : Option Int
  handle : Option Str
  parent_handle : Option Str
  su_handle : Option Str
  user : Option Str
  size : Option Int
  mtime : Option Int
  key : Option Bytes
  key_full : Option Bytes
  attrs : Option Attrs
  name : Option Str
deriving DecidableEq

/-- The key-loading loop of `importNode` (session.js lines 272-299): for each
`<handle>:<data>` pair pick MK when the handle is our own, else the share key
for that handle; a pair with no available key drops the node (`none`); for
FILE nodes the decrypt is kept as `key_full` and folded through
`file_node_key_unpack`, for others it is the key directly.  Later pairs
overwrite earlier ones, as the JS loop does. -/
def loadKeys (P : CryptoPrim) (sess : SessData) (skeys : Str → Option Bytes)
    (t : Option Int) :
    List KeyPair → Option Bytes → Option Bytes → Option (Option Bytes × Option Bytes)
  | [], key, keyFull => some (key, keyFull)
  | pr :: rest, _, keyFull =>
    match (if sess.uh = some pr.kh then some sess.mkey else skeys pr.kh) with
    | none => none
    | some dk =>
      if t = some NodeType.FILE then
        loadKeys P sess skeys t rest
          (some (P.file_node_key_unpack (P.aes_dec dk pr.kd)))
          (some (P.aes_dec dk pr.kd))
      else
        loadKeys P sess skeys t rest (some (P.aes_dec dk pr.kd)) keyFull

/-- The name rejection test of `importNode` (session.js lines 316-326).  On
Windows the source matches the name against a regex that is the literal
sequence `winBadSeq`, i.e. containment of that nine-character run; elsewhere
it matches against a single literal slash, i.e. containment of byte 47. -/
def nameRejected (win : Bool) (name : Str) : Bool :=
  if win then name == dotStr || name == dotdotStr || hasSeq winBadSeq name
  else name == dotStr || name == dotdotStr || name.contains 47

/-- The fixed names for root-class nodes (session.js lines 329-335). -/
def fixedName (t : Option Int) (name : Option Str) : Option Str :=
  if t = some NodeType.RUBBISH then some rubbishStr
  else if t = some NodeType.INBOX then some inboxStr
  else if t = some NodeType.ROOT then some rootStr
  else name

/-- The attribute block of `importNode` (session.js lines 301-327), entered
only when a node key and an `a` field are present: CBC-decrypt, require the
`MEGA{` magic (else drop the node), extract and parse the JSON (a `null`
extraction feeds `JSON.parse(null)` whose `null` result crashes the
subsequent `.n` access; an invalid JSON string makes `JSON.parse` throw),
then run the platform name check.  Returns the attribute object and name,
or `none` to drop the node. -/
def importAttrs (P : CryptoPrim) (win : Bool) (nkey : Option Bytes)
    (a : Option Str) : Except JsErr (Option (Option Attrs × Option Str)) :=
  match nkey, a with
  | some key, some astr =>
    match P.aes_dec_cbc key (P.ub64dec astr) with
    | some ab =>
      if ab.take 5 = megaBrace then
        match P.buftojsonstring (ab.drop 4) with
        | none => .error .typeError
        | some js =>
          match P.json_parse_attrs js with
          | none => .error .syntaxError
          | some att =>
            if nameRejected win att.n then .ok none
            else .ok (some (some att, some att.n))
      else .ok none
    | none => .ok none
  | _, _ => .ok (some (none, none))

/-- `Filesystem.importNode` (session.js lines 260-353).  The final `sk`
branch (lines 337-350) reads `sk.length` on the declared-but-unassigned
variable `sk` (`var esk = C.ub64dec(data.sk), sk; if (sk.length > 16) ...`),
so any node carrying an `sk` field makes the import throw a TypeError before
the decoded `esk` is ever examined. -/
def importNode (P : CryptoPrim) (win : Bool) (sess : SessData)
    (skeys : Str → Option Bytes) (d : NodeData) : Except JsErr (Option Node) :=
  match loadKeys P sess skeys d.t (d.k.getD []) none none with
  | none => .ok none
  | some kk =>
    match importAttrs P win kk.1 d.a with
    | .error e => .error e
    | .ok none => .ok none
    | .ok (some an) =>
      match d.sk with
      | some _ => .error .typeError
      | none =>
        .ok (some
          { type := d.t
            handle := d.h
            parent_handle := some (d.p.getD topStr)
            su_handle := d.su
            user := d.u
            size := d.s
            mtime := d.ts
            key := kk.1
            key_full := kk.2
            attrs := an.1
            name := fixedName d.t an.2 })

/-- One `ok` entry of the `f` response. -/
structure OkEntry where
  h : Str
  ha : Str
  k : Str
deriving DecidableEq

/-- One `u` entry of the `f` response. -/
structure UEntry where
  u : Str
  c : Int
  m : Str
  ts : Option Int
deriving DecidableEq

/-- The `f` response body. -/
structure FResponse where
  ok : Option (List OkEntry)
  f : Option (List NodeData)
  u : Option (List UEntry)
deriving DecidableEq

/-- The filesystem state `Filesystem.load` rebuilds and `getData` persists:
the node map and the share-key map. -/
structure FsState where
  nodes : Str → Option Node
  share_keys : Str → Option Bytes

/-- The request `Filesystem.load` issues (session.js lines 356-359). -/
structure FReq where
  a : String
  c : Int
  r : Int
deriving DecidableEq

def fsLoadRequest : FReq := { a := "f", c := 1, r := 1 }

/-- Modelled from the spec: `MegaAPI.callSingle` is invoked by
`Filesystem.load` but is defined nowhere under the given sources; per the
the single-call contract of the spec — a convenience that wraps a
batch-of-one — it
sends exactly one RPC carrying the single request. -/
def callSingleRequests (req : FReq) : List FReq := [req]

/-- JS object-property assignment `m[key] = v` on a node map. -/
def insertNode (m : Str → Option Node) (key : Str) (v : Node) : Str → Option Node :=
  fun s => if s = key then some v else m s

/-- `Filesystem.setShareKey` (session.js lines 517-519). -/
def insertKey (m : Str → Option Bytes) (key : Str) (v : Bytes) : Str → Option Bytes :=
  fun s => if s = key then some v else m s

/-- The `ok` loop of `Filesystem.load` (session.js lines 372-390): for each
entry decrypt `ha` and `k` with MK and install the share key only when
`ha == h ‖ h`; a failed authentication just skips the entry. -/
def ingestOk (P : CryptoPrim) (mk : Bytes) :
    List OkEntry → (Str → Option Bytes) → (Str → Option Bytes)
  | [], sk => sk
  | e :: rest, sk =>
    ingestOk P mk rest
      (if P.aes_dec mk (P.ub64dec e.ha) = e.h ++ e.h
       then insertKey sk e.h (P.aes_dec mk (P.ub64dec e.k))
       else sk)

/-- The JS property key under which an imported node is stored:
`this.nodes[node.handle]`, which is the text `undefined` when `h` was absent. -/
def nodeKeyOf (d : NodeData) : Str := d.h.getD undefStr

/-- The `f` loop of `Filesystem.load` (session.js lines 399-404): run
`importNode` on each entry, store accepted ones under their handle, and
propagate a thrown error. -/
def ingestF (P : CryptoPrim) (win : Bool) (sess : SessData)
    (skeys : Str → Option Bytes) :
    List NodeData → (Str → Option Node) → Except JsErr (Str → Option Node)
  | [], m => .ok m
  | d :: rest, m =>
    match importNode P win sess skeys d with
    | .error e => .error e
    | .ok none => ingestF P win sess skeys rest m
    | .ok (some n) =>
      ingestF P win sess skeys rest (insertNode m (n.handle.getD undefStr) n)

/-- The contact pseudo-node built for a `u` entry with `c == 1`
(session.js lines 421-428). -/
def contactNode (v : UEntry) : Node :=
  { type := some NodeType.CONTACT
    handle := some v.u
    parent_handle := some networkStr
    su_handle := none
    user := none
    size := some 0
    mtime := v.ts
    key := none
    key_full := none
    attrs := none
    name := some v.m }

/-- The `u` loop of `Filesystem.load` (session.js lines 416-431). -/
def ingestU : List UEntry → (Str → Option Node) → (Str → Option Node)
  | [], m => m
  | v :: rest, m =>
    ingestU rest (if v.c = 1 then insertNode m v.u (contactNode v) else m)

/-- The synthetic `*TOP*` node (session.js lines 364-370); it has no
`parent_handle`. -/
def topNode : Node :=
  { type := some NodeType.TOP
    handle := some topStr
    parent_handle := none
    su_handle := none
    user := none
    size := some 0
    mtime := some 0
    key := none
    key_full := none
    attrs := none
    name := some [] }

/-- The synthetic `*NETWORK` node (session.js lines 407-414). -/
def networkNode : Node :=
  { type := some NodeType.NETWORK
    handle := some networkStr
    parent_handle := some topStr
    su_handle := none
    user := none
    size := some 0
    mtime := some 0
    key := none
    key_full := none
    attrs := none
    name := some contactsStr }

/-- The share-key map after the `ok` pass of `Filesystem.load` (absent `ok`
leaves the pre-existing map untouched; `load` never resets `share_keys`). -/
def okShareKeys (P : CryptoPrim) (mkey : Bytes) (ok : Option (List OkEntry))
    (skInit : Str → Option Bytes) : Str → Option Bytes :=
  match ok with
  | some l => ingestOk P mkey l skInit
  | none => skInit

/-- The ingestion part of the response handler of `Filesystem.load` (session.js
lines 360-431): reset `nodes` to the `*TOP*` sentinel (the share-key map is
*not* reset), install authenticated `ok` share keys, import the `f` nodes,
add `*NETWORK`, then one contact node per `u` entry with `c == 1`.  In
exported-folder mode the source calls the nonexistent `this.addShareKey`
(line 396), a TypeError.  The subsequent `mapPaths` / `mapChildren` passes
only rebuild the derived path and child indexes, which are not part of the
persisted `{nodes, share_keys}` snapshot modelled here. -/
def fsLoadIngest (P : CryptoPrim) (win : Bool) (sess : SessData)
    (skInit : Str → Option Bytes) (r : FResponse) : Except JsErr FsState :=
  match r.f with
  | some fl =>
    if sess.isExportedFolder then .error .typeError
    else
      match ingestF P win sess (okShareKeys P sess.mkey r.ok skInit) fl
          (insertNode (fun _ => none) topStr topNode) with
      | .error e => .error e
      | .ok nodes1 =>
        .ok { nodes := ingestU (r.u.getD []) (insertNode nodes1 networkStr networkNode)
              share_keys := okShareKeys P sess.mkey r.ok skInit }
  | none =>
    .ok { nodes := ingestU (r.u.getD [])
            (insertNode (insertNode (fun _ => none) topStr topNode)
              networkStr networkNode)
          share_keys := okShareKeys P sess.mkey r.ok skInit }

/- ===== concrete primitive instantiation used by the witnesses ===== -/

/-- A fixed attribute object for witnesses. -/
def A0 : Attrs := ⟨[97, 98, 99, 100, 101, 102, 103, 104, 105, 106, 107]⟩

/-- A concrete executable instantiation of the external primitives, used only
to evaluate the hypotheses of the theorems at witness points. -/
def toyP : CryptoPrim :=
  { aes_key_from_password := fun pw => pw
    aes_enc := fun _ b => b
    aes_dec := fun _ b => b
    aes_enc_cbc := fun _ d => d
    aes_dec_cbc := fun _ d => some d
    sha256 := fun l => (l.headD 0 % 256) :: List.replicate 31 0
    ub64enc := fun b => b
    ub64dec := fun s => s
    ctr_ks := fun _ _ i => i % 256
    file_node_key_unpack := fun k => k.take 16
    buftojsonstring := fun b => some b
    json_parse_attrs := fun b => some ⟨b.drop 1⟩
    json_stringify_attrs := fun a => 123 :: a.n }

/-- A concrete session state for evaluation: user handle `U` (byte 85), master key
`[1]`, no private key, not an exported folder. -/
def sess0 : SessData :=
  { uh := some [85], mkey := [1], privk := none, isExportedFolder := false }

/-- A node object whose data carries an `sk` field (and no key or attrs). -/
def c9data : NodeData :=
  { t := some 1, h := some [104], p := none, su := none, u := none, s := none,
    ts := none, k := none, a := none, sk := some [65] }

/-- A folder node owned by the user of `sess0` whose attribute blob decrypts to
the name `a<b` (bytes 97, 60, 98) under the concrete primitives. -/
def c10data : NodeData :=
  { t := some 1, h := some [104, 50], p := none, su := none, u := none,
    s := none, ts := none, k := some [⟨[85], [3, 3]⟩],
    a := some [77, 69, 71, 65, 123, 97, 60, 98], sk := none }

/-- The node `importNode` admits for `c10data` on Windows. -/
def c10node : Node :=
  { type := some 1, handle := some [104, 50], parent_handle := some topStr,
    su_handle := none, user := none, size := none, mtime := none,
    key := some [3, 3], key_full := none, attrs := some ⟨[97, 60, 98]⟩,
    name := some [97, 60, 98] }

/-- A concrete authenticated `ok` entry for evaluation. -/
def c3ok : OkEntry := ⟨[104], [104, 104], [9]⟩

/-- A concrete importable `f` node for evaluation. -/
def c3node : NodeData :=
  { t := some 1, h := some [110], p := none, su := none, u := none, s := none,
    ts := none, k := some [⟨[85], [3]⟩], a := some [77, 69, 71, 65, 123, 97],
    sk := none }

/-- A concrete accepted contact entry for evaluation. -/
def c3contact : UEntry := ⟨[117, 49], 1, [109, 64], some 5⟩

/-- A concrete `f` response for evaluation. -/
def c3resp : FResponse :=
  { ok := some [c3ok], f := some [c3node], u := some [c3contact] }

/-- The node `importNode` produces for `c3node` under the concrete
primitives. -/
def c3imported : Node :=
  { type := some 1, handle := some [110], parent_handle := some topStr,
    su_handle := none, user := none, size := none, mtime := none,
    key := some [3], key_full := none, attrs := some ⟨[97]⟩, name := some [97] }

/-- The state `fsLoadIngest` computes on `c3resp`. -/
def c3state : FsState :=
  match fsLoadIngest toyP false sess0 (fun _ => none) c3resp with
  | .ok st => st
  | .error _ => ⟨fun _ => none, fun _ => none⟩

/- ===== THEOREMS ===== -/

theorem ctrXor_length (g : Nat → Nat) : ∀ (i : Nat) (l : List Nat),
    (ctrXor g i l).length = l.length := by
  intro i l
  induction l generalizing i with
  | nil => rfl
  | cons b rest ih => simp [ctrXor, ih]

theorem ctrXor_ctrXor (g : Nat → Nat) : ∀ (i : Nat) (l : List Nat),
    ctrXor g i (ctrXor g i l) = l := by
  intro i l
  induction l generalizing i with
  | nil => rfl
  | cons b rest ih =>
    simp [ctrXor, ih, Nat.xor_assoc, Nat.xor_self, Nat.xor_zero]

theorem xorAt_length : ∀ (l : List Nat) (i d : Nat),
    (xorAt l i d).length = l.length := by
  intro l
  induction l with
  | nil => intro i d; rfl
  | cons b rest ih =>
    intro i d
    cases i with
    | zero => rfl
    | succ j => simp [xorAt, ih]

theorem ctrXor_xorAt (g : Nat → Nat) : ∀ (l : List Nat) (j i d : Nat),
    ctrXor g j (xorAt l i d) = xorAt (ctrXor g j l) i d := by
  intro l
  induction l with
  | nil => intro j i d; rfl
  | cons b rest ih =>
    intro j i d
    cases i with
    | zero =>
      simp [xorAt, ctrXor]
      rw [Nat.xor_assoc, Nat.xor_comm d (g j), ← Nat.xor_assoc]
    | succ k => simp [xorAt, ctrXor, ih]

theorem xorAt_append_left : ∀ (l₁ l₂ : List Nat) (i d : Nat), i < l₁.length →
    xorAt (l₁ ++ l₂) i d = xorAt l₁ i d ++ l₂ := by
  intro l₁
  induction l₁ with
  | nil => intro l₂ i d h; simp at h
  | cons b rest ih =>
    intro l₂ i d h
    cases i with
    | zero => simp [xorAt]
    | succ j =>
      simp only [List.cons_append, xorAt, List.cons.injEq, true_and]
      exact ih l₂ j d (by simpa using h)

theorem xorAt_append_right : ∀ (l₁ l₂ : List Nat) (i d : Nat), l₁.length ≤ i →
    xorAt (l₁ ++ l₂) i d = l₁ ++ xorAt l₂ (i - l₁.length) d := by
  intro l₁
  induction l₁ with
  | nil => intro l₂ i d h; simp
  | cons b rest ih =>
    intro l₂ i d h
    cases i with
    | zero => simp at h
    | succ j =>
      simp only [List.cons_append, xorAt, List.cons.injEq, true_and, List.length_cons]
      have hrec := ih l₂ j d (by simpa using h)
      simpa [Nat.succ_sub_succ] using hrec

theorem xorAt_ne : ∀ (l : List Nat) (i d : Nat), i < l.length → d ≠ 0 →
    xorAt l i d ≠ l := by
  intro l
  induction l with
  | nil => intro i d h; simp at h
  | cons b rest ih =>
    intro i d hi hd
    cases i with
    | zero =>
      simp only [xorAt, ne_eq, List.cons.injEq, not_and]
      intro hb
      exfalso
      apply hd
      have h2 : b ^^^ (b ^^^ d) = b ^^^ b := by rw [hb]
      rwa [← Nat.xor_assoc, Nat.xor_self, Nat.zero_xor] at h2
    | succ j =>
      simp only [xorAt, ne_eq, List.cons.injEq, true_and]
      exact ih j d (by simpa using hi) hd

theorem runRequest_delays : ∀ (evs : List HttpEvent) (t : Nat),
    (runRequest evs t).1
      = List.map (fun j => t * 2 ^ j) (List.range (runRequest evs t).1.length)
    ∧ (∀ d ∈ (runRequest evs t).1, d < 120 * 1000 * 1000) := by
  intro evs
  induction evs with
  | nil => intro t; simp [runRequest]
  | cons e rest ih =>
    intro t
    cases e with
    | onload r => simp [runRequest]
    | onerror c m =>
      by_cases hc : c = "busy" ∨ c = "no_response"
      · by_cases ht : t < 120 * 1000 * 1000
        · obtain ⟨h1, h2⟩ := ih (2 * t)
          simp only [runRequest, if_pos hc, if_pos ht]
          refine ⟨?_, ?_⟩
          · rw [List.length_cons, List.range_succ_eq_map, List.map_cons, List.map_map]
            rw [pow_zero, Nat.mul_one]
            congr 1
            have hcong : List.map (fun j => 2 * t * 2 ^ j)
                (List.range (runRequest rest (2 * t)).1.length)
                = List.map ((fun j => t * 2 ^ j) ∘ Nat.succ)
                  (List.range (runRequest rest (2 * t)).1.length) := by
              apply List.map_congr_left
              intro j _
              simp only [Function.comp, Nat.pow_succ]
              ring
            conv_lhs => rw [h1]
            exact hcong
          · intro d hd
            rcases List.mem_cons.mp hd with rfl | hd2
            · exact ht
            · exact h2 d hd2
        · simp [runRequest, if_pos hc, if_neg ht]
      · simp [runRequest, if_neg hc]

/-- C6: In `callMulti`, a transport failure with code `busy` or `no_response`
retries the same request after an exponentially backed-off delay: the delays
form the sequence 10000 ms · 2^j (starting at 10 s, doubling), and every slept
delay is below the 120 000 000 ms (= 120 000 s) ceiling; a transport failure
with any other code rejects with that code and message verbatim, with no
retry; and a scalar (negative) integer response arrives via `onload` and is
rejected through the error mapping immediately — never retried. -/
theorem c6_retry_policy :
    (∀ evs : List HttpEvent,
        (runRequest evs 10000).1
          = List.map (fun j => 10000 * 2 ^ j)
              (List.range (runRequest evs 10000).1.length)
        ∧ (∀ d ∈ (runRequest evs 10000).1, d < 120 * 1000 * 1000))
    ∧ (∀ (evs : List HttpEvent) (t : Nat) (c m : String),
        ¬(c = "busy" ∨ c = "no_response") →
        runRequest (.onerror c m :: evs) t = ([], .rejected c (some m)))
    ∧ (∀ (evs : List HttpEvent) (t : Nat) (c m : String),
        (c = "busy" ∨ c = "no_response") → t < 120 * 1000 * 1000 →
        runRequest (.onerror c m :: evs) t
          = (t :: (runRequest evs (2 * t)).1, (runRequest evs (2 * t)).2))
    ∧ (∀ (evs : List HttpEvent) (t : Nat) (k : Int), k < 0 →
        runRequest (.onload (.num k) :: evs) t
          = ([], .rejected (getErrorName k) (some (getErrorMessage (getErrorName k))))) := by
  refine ⟨fun evs => runRequest_delays evs 10000, ?_, ?_, ?_⟩
  · intro evs t c m hc
    simp [runRequest, if_neg hc]
  · intro evs t c m hc ht
    simp [runRequest, if_pos hc, if_pos ht]
  · intro evs t k _
    rfl

/-- C6 witness: a single `busy` failure at the initial timeout schedules a
retry after 10 000 ms. -/
theorem c6_retry_policy_witness :
    runRequest [HttpEvent.onerror "busy" "x"] 10000
      = (10000 :: (runRequest [] (2 * 10000)).1, (runRequest [] (2 * 10000)).2) :=
  c6_retry_policy.2.2.1 [] 10000 "busy" "x" (Or.inl rfl) (by decide)

/-- C5: For a flushed batch of `n` requests, an array response is delivered
positionally: continuation `i` receives the demux of result `i`, where a
negative integer rejects with the mapped error name and its canonical message
(an integer with no mapping getting the name `EUNKNOWN`), and any other value
resolves; a whole-batch transport failure (code other than the retry
triggers) or a global scalar-integer response rejects all `n` continuations
with the same code. -/
theorem c5_batch_demux (n : Nat) :
    (∀ (rs : List RVal) (i : Nat),
        (batchOutcomes n (.resolved rs)).get? i = (rs.get? i).map demuxOne)
    ∧ (∀ k : Int, k < 0 →
        demuxOne (.num k)
          = .rejectedP (getErrorName k) (some (getErrorMessage (getErrorName k))))
    ∧ (∀ k : Int, 0 ≤ k → demuxOne (.num k) = .resolvedP (.num k))
    ∧ (∀ tag : Nat, demuxOne (.obj tag) = .resolvedP (.obj tag))
    ∧ (∀ k : Int, (∀ p ∈ errorCodes, p.2 ≠ k) → getErrorName k = "EUNKNOWN")
    ∧ (∀ (c m : String) (evs : List HttpEvent), ¬(c = "busy" ∨ c = "no_response") →
        batchFlush n (.onerror c m :: evs)
          = List.replicate n (.rejectedP c (some m)))
    ∧ (∀ (g : Int) (evs : List HttpEvent),
        batchFlush n (.onload (.num g) :: evs)
          = List.replicate n
              (.rejectedP (getErrorName g) (some (getErrorMessage (getErrorName g))))) := by
  refine ⟨?_, ?_, ?_, ?_, ?_, ?_, ?_⟩
  · intro rs i
    simp [batchOutcomes, List.get?_eq_getElem?, List.getElem?_map]
  · intro k hk
    simp [demuxOne, if_pos hk]
  · intro k hk
    simp only [demuxOne]
    rw [if_neg (by omega)]
  · intro tag
    rfl
  · intro k h
    have hnone : errorCodes.find? (fun p => p.2 == k) = none :=
      List.find?_eq_none.mpr (fun x hx => by simpa using h x hx)
    simp [getErrorName, hnone]
  · intro c m evs hc
    simp only [batchFlush, runRequest, if_neg hc]
    rfl
  · intro g evs
    rfl

/-- C5 witness: a mapped negative per-position result, and a whole-batch
transport failure rejecting both continuations alike. -/
theorem c5_batch_demux_witness :
    demuxOne (RVal.num (-9))
      = PosOut.rejectedP (getErrorName (-9)) (some (getErrorMessage (getErrorName (-9))))
    ∧ batchFlush 2 [HttpEvent.onerror "dns" "boom"]
      = List.replicate 2 (PosOut.rejectedP "dns" (some "boom")) :=
  ⟨(c5_batch_demux 2).2.1 (-9) (by decide),
   (c5_batch_demux 2).2.2.2.2.2.1 "dns" "boom" [] (by decide)⟩

theorem runBatches_ids (batches : List (List HttpEvent)) : ∀ (st : ApiState)
    (j : Nat) (ids : List Nat), (runBatches st batches).2.get? j = some ids →
    ∀ i ∈ ids, i = st.callId + j + 1 := by
  induction batches with
  | nil => intro st j ids h; simp [runBatches] at h
  | cons evs rest ih =>
    intro st j ids h
    cases j with
    | zero =>
      simp only [runBatches, List.get?_cons_zero, Option.some.injEq] at h
      intro i hi
      rw [← h] at hi
      simp only [callMultiStep, sentIds] at hi
      exact List.eq_of_mem_replicate hi
    | succ j' =>
      simp only [runBatches, List.get?_cons_succ] at h
      intro i hi
      have hrec := ih (callMultiStep st evs).1 j' ids h i hi
      simp only [callMultiStep] at hrec
      omega

/-- C7: `callId` is incremented exactly once per `callMulti` batch (so it is
strictly increasing over the session), the increment happens before the first
send, and the id stays unchanged across all retries of that batch: every HTTP
request of one logical batch carries the same id, and the `j`-th batch of a
session starting at state `st` carries id `st.callId + j + 1`. -/
theorem c7_callid_monotone (st : ApiState) :
    (∀ evs : List HttpEvent, ((callMultiStep st evs).1).callId = st.callId + 1)
    ∧ (∀ evs : List HttpEvent, st.callId < ((callMultiStep st evs).1).callId)
    ∧ (∀ evs : List HttpEvent, ∀ i ∈ (callMultiStep st evs).2.1, i = st.callId + 1)
    ∧ (∀ (batches : List (List HttpEvent)) (j : Nat) (ids : List Nat),
        (runBatches st batches).2.get? j = some ids →
        ∀ i ∈ ids, i = st.callId + j + 1) := by
  refine ⟨fun _ => rfl, fun evs => by simp [callMultiStep], ?_, ?_⟩
  · intro evs i hi
    simp only [callMultiStep, sentIds] at hi
    exact List.eq_of_mem_replicate hi
  · intro batches j ids h
    exact runBatches_ids batches st j ids h

/-- C7 witness: in a two-batch session starting from call id 0, the second
requests of the second batch carry id 2 = 0 + 1 + 1. -/
theorem c7_callid_monotone_witness :
    (2 : Nat) = (ApiState.mk 0).callId + 1 + 1 :=
  (c7_callid_monotone ⟨0⟩).2.2.2 [[], []] 1 (sentIds ⟨1⟩ []) (by decide) 2 (by decide)

/-- C8: If the on-disk blob loads (exists and decrypts), its saved timestamp
lies within one hour of the current time, and `forceCheck` is not set, then
`open()` takes the direct-resolve branch, which performs no HTTP traffic at
all (no `getUser`, `login` or `loginEphemeral`). -/
theorem c8_fresh_resume (saved now : Nat) (h0 : 0 < saved)
    (hwin : now < saved + 3600 * 1000) :
    openFlow true (some saved) now false = OpenFlow.resolveDirect
    ∧ openHttpCalls (openFlow true (some saved) now false) = [] := by
  have hfresh : isFresh (some saved) now = true := by
    simp only [isFresh, Bool.and_eq_true, decide_eq_true_eq]
    omega
  constructor
  · simp [openFlow, hfresh]
  · simp [openFlow, hfresh, openHttpCalls]

/-- C8 witness: a session saved one minute before `now` resumes without
traffic. -/
theorem c8_fresh_resume_witness :
    openFlow true (some 1000000) 1060000 false = OpenFlow.resolveDirect
    ∧ openHttpCalls (openFlow true (some 1000000) 1060000 false) = [] :=
  c8_fresh_resume 1000000 1060000 (by decide) (by decide)

/-- C4: The TSID check itself behaves as claimed — a decoded TSID shorter
than 32 bytes or one whose last 16 bytes differ from AES-ECB(mk, first 16) is
rejected, a matching one passes —, but when the check fails during
`loginEphemeral` the operation does not reject with `invalid_tsid`: the
failure branch reads the unbound identifier `defer`, so the handler crashes
with a ReferenceError, evaluated here at a concrete failing response. -/
theorem c4_tsid_failure_crashes :
    tsOk toyP [0] [9] = false
    ∧ tsOk toyP (List.replicate 16 1 ++ List.replicate 16 1) [9] = true
    ∧ tsOk toyP (List.replicate 16 1 ++ List.replicate 16 2) [9] = false
    ∧ loginEphemeralHandler toyP [2] ⟨[7], [0]⟩
        = LoginResult.err JsErr.referenceError := by
  decide

/-- C1: For every username, password, session name and byte payload `p`,
`loadSessionFile` after `saveSessionFile` returns `p`; when the stored file is
absent, or the decrypted SHA-256 prefix does not match the digest of the
remainder — in particular after any single-byte tamper of the stored file —
`loadSessionFile` returns `none` (and, being a total function, never crashes).
For a tamper inside the 32-byte digest prefix no extra assumption is needed;
for a tamper in the payload part the statement assumes SHA-256 distinguishes
the tampered payload, which is the collision-resistance contract of the
external digest. -/
theorem c1_session_blob_envelope (P : CryptoPrim) (username password name p : Bytes)
    (hlen : (P.sha256 p).length = 32) :
    loadSessionFile P username password name
        (some (saveSessionFile P username password name p)) = some p
    ∧ loadSessionFile P username password name none = none
    ∧ (∀ data : Bytes,
        P.sha256 ((ctrXor (sessionKs P username password name) 0 data).drop 32)
          ≠ (ctrXor (sessionKs P username password name) 0 data).take 32 →
        loadSessionFile P username password name (some data) = none)
    ∧ (∀ i d : Nat, d ≠ 0 → i < 32 + p.length →
        (32 ≤ i → P.sha256 (xorAt p (i - 32) d) ≠ P.sha256 p) →
        loadSessionFile P username password name
          (some (xorAt (saveSessionFile P username password name p) i d)) = none) := by
  refine ⟨?_, rfl, ?_, ?_⟩
  · simp only [loadSessionFile, saveSessionFile, ctrXor_ctrXor]
    rw [show (32 : Nat) = (P.sha256 p).length from hlen.symm, List.take_left,
      List.drop_left, if_pos rfl]
  · intro data hne
    simp only [loadSessionFile]
    exact if_neg hne
  · intro i d hd hi hcoll
    simp only [loadSessionFile, saveSessionFile, ctrXor_xorAt, ctrXor_ctrXor]
    by_cases hlt : i < 32
    · rw [xorAt_append_left _ _ _ _ (by omega)]
      rw [show (32 : Nat) = (xorAt (P.sha256 p) i d).length by
        rw [xorAt_length]; omega, List.take_left, List.drop_left]
      apply if_neg
      intro heq
      exact xorAt_ne (P.sha256 p) i d (by rw [hlen]; exact hlt) hd heq.symm
    · rw [xorAt_append_right _ _ _ _ (by omega)]
      rw [show (32 : Nat) = (P.sha256 p).length from hlen.symm, List.take_left,
        List.drop_left]
      rw [hlen]
      exact if_neg (hcoll (by omega))

/-- C2: For every attribute mapping `A` and key `K`,
`decNodeAttrs K (makeNodeAttrs K A) = A`, assuming only the contracts the spec
gives the external codecs at the values involved (base64 and CBC round-trip,
`JSON.stringify` produces an object literal starting with an opening brace,
the JSON-tail extractor tolerates the alignment padding, and parse undoes
stringify).  Every input whose decryption fails or does not begin with the
bytes of `megaBrace`, and every input whose JSON tail fails to parse as the
source detects it — `C.buftojsonstring` returning null — yields a null
return; and under the validation contract of the external extractor (any
string it hands to `JSON.parse` does parse), `decNodeAttrs` throws on no
input at all. -/
theorem c2_node_attrs_codec (P : CryptoPrim) (rand nk : Bytes) (A : Attrs)
    (hbrace : (P.json_stringify_attrs A).take 1 = [123])
    (hcbc : P.aes_dec_cbc nk (P.aes_enc_cbc nk
        (alignbuf (megaStr ++ P.json_stringify_attrs A) 16 rand))
      = some (alignbuf (megaStr ++ P.json_stringify_attrs A) 16 rand))
    (hb64 : P.ub64dec (P.ub64enc (P.aes_enc_cbc nk
        (alignbuf (megaStr ++ P.json_stringify_attrs A) 16 rand)))
      = P.aes_enc_cbc nk (alignbuf (megaStr ++ P.json_stringify_attrs A) 16 rand))
    (hjson : P.buftojsonstring
        ((alignbuf (megaStr ++ P.json_stringify_attrs A) 16 rand).drop 4)
      = some (P.json_stringify_attrs A))
    (hparse : P.json_parse_attrs (P.json_stringify_attrs A) = some A)
    (hvalid : ∀ ab js : Bytes, P.buftojsonstring ab = some js →
        (P.json_parse_attrs js).isSome = true) :
    decNodeAttrs P nk (makeNodeAttrs P rand nk A) = Except.ok (some A)
    ∧ (∀ a : Str, P.aes_dec_cbc nk (P.ub64dec a) = none →
        decNodeAttrs P nk a = Except.ok none)
    ∧ (∀ a : Str, ∀ ab : Bytes, P.aes_dec_cbc nk (P.ub64dec a) = some ab →
        ab.take 5 ≠ megaBrace → decNodeAttrs P nk a = Except.ok none)
    ∧ (∀ a : Str, ∀ ab : Bytes, P.aes_dec_cbc nk (P.ub64dec a) = some ab →
        P.buftojsonstring (ab.drop 4) = none → decNodeAttrs P nk a = Except.ok none)
    ∧ (∀ a : Str, ∀ e : JsErr, decNodeAttrs P nk a ≠ Except.error e) := by
  obtain ⟨t, ht⟩ : ∃ t, P.json_stringify_attrs A = 123 :: t := by
    cases h : P.json_stringify_attrs A with
    | nil => rw [h] at hbrace; simp at hbrace
    | cons hd tl =>
      rw [h] at hbrace
      simp [List.take] at hbrace
      exact ⟨tl, by rw [hbrace]⟩
  refine ⟨?_, ?_, ?_, ?_, ?_⟩
  · have hd2 : P.aes_dec_cbc nk (P.ub64dec (makeNodeAttrs P rand nk A))
        = some (alignbuf (megaStr ++ P.json_stringify_attrs A) 16 rand) := by
      rw [makeNodeAttrs, hb64]; exact hcbc
    simp only [decNodeAttrs, hd2]
    rw [if_pos (by simp [alignbuf, ht, megaStr, megaBrace])]
    simp only [hjson, hparse]
  · intro a h
    simp only [decNodeAttrs, h]
  · intro a ab h1 h2
    simp only [decNodeAttrs, h1]
    exact if_neg h2
  · intro a ab h1 h2
    simp only [decNodeAttrs, h1, h2]
    split <;> rfl
  · intro a e
    cases hdec : P.aes_dec_cbc nk (P.ub64dec a) with
    | none => simp [decNodeAttrs, hdec]
    | some ab =>
      simp only [decNodeAttrs, hdec]
      by_cases hm : ab.take 5 = megaBrace
      · rw [if_pos hm]
        cases hbj : P.buftojsonstring (ab.drop 4) with
        | none => simp
        | some js =>
          have hv := hvalid _ _ hbj
          cases hp : P.json_parse_attrs js with
          | none => rw [hp] at hv; simp at hv
          | some att => simp [hp]
      · rw [if_neg hm]
        simp

/-- C2 witness: the round trip on a concrete attribute object, and a null
return on a ciphertext whose plaintext lacks the magic, with the concrete
instantiation (whose extractor/parser pair satisfies the validation
contract definitionally). -/
theorem c2_node_attrs_codec_witness :
    decNodeAttrs toyP [7] (makeNodeAttrs toyP [] [7] A0) = Except.ok (some A0)
    ∧ decNodeAttrs toyP [7] [1, 2, 3] = Except.ok none := by
  refine ⟨(c2_node_attrs_codec toyP [] [7] A0 (by decide) (by decide) (by decide)
    (by decide) (by decide) (fun _ _ _ => rfl)).1, ?_⟩
  exact (c2_node_attrs_codec toyP [] [7] A0 (by decide) (by decide) (by decide)
    (by decide) (by decide) (fun _ _ _ => rfl)).2.2.1 [1, 2, 3] [1, 2, 3]
    (by decide) (by decide)

/-- C1 witness: the round trip and a payload-byte tamper, evaluated with the
concrete primitive instantiation. -/
theorem c1_session_blob_envelope_witness :
    loadSessionFile toyP [1] [2] [3]
        (some (saveSessionFile toyP [1] [2] [3] [5, 6])) = some [5, 6]
    ∧ loadSessionFile toyP [1] [2] [3]
        (some (xorAt (saveSessionFile toyP [1] [2] [3] [5, 6]) 32 7)) = none := by
  refine ⟨(c1_session_blob_envelope toyP [1] [2] [3] [5, 6] (by decide)).1, ?_⟩
  exact (c1_session_blob_envelope toyP [1] [2] [3] [5, 6] (by decide)).2.2.2
    32 7 (by decide) (by decide) (fun _ => by decide)

/-- C9: the claim describes the intended `sk` handling (RSA when the decoded
value exceeds 16 bytes, AES-ECB at exactly 16, installing the first 16 bytes
as the share key of the node), but the source reads `sk.length` on the
declared-but-unassigned variable `sk` — the decoded `esk` is never consulted
— so importing any node that carries an `sk` field throws a TypeError, as
this evaluation at a concrete `sk`-bearing node shows. -/
theorem c9_sk_branch_crashes :
    importNode toyP false sess0 (fun _ => none) c9data
      = Except.error JsErr.typeError := by
  rfl

/-- C10: on Windows the name regex of the source matches only the literal
character sequence slash-backslash-lt-gt-colon-quote-pipe-question-star, not
the character set, so a decrypted name `a<b` — which contains `<` (byte 60),
a member of the claimed rejection set `winBadSeq` — is admitted rather than
dropped (`importNode` returns the node, not `none`). -/
theorem c10_windows_separator_admitted :
    importNode toyP true sess0 (fun _ => none) c10data
      = Except.ok (some c10node)
    ∧ (60 ∈ winBadSeq ∧ c10node.name = some [97, 60, 98]) := by
  exact ⟨rfl, by decide, rfl⟩

theorem importNode_handle (P : CryptoPrim) (win : Bool) (sess : SessData)
    (skeys : Str → Option Bytes) (d : NodeData) (n : Node)
    (h : importNode P win sess skeys d = Except.ok (some n)) : n.handle = d.h := by
  unfold importNode at h
  split at h
  · exact absurd h (by simp)
  · split at h
    · exact absurd h (by simp)
    · exact absurd h (by simp)
    · split at h
      · exact absurd h (by simp)
      · simp only [Except.ok.injEq, Option.some.injEq] at h
        subst h
        rfl

theorem ingestOk_preserve (P : CryptoPrim) (mkey : Bytes) :
    ∀ (l : List OkEntry) (sk : Str → Option Bytes) (x : Str),
    (∀ e ∈ l, e.h ≠ x) → ingestOk P mkey l sk x = sk x := by
  intro l
  induction l with
  | nil => intro sk x _; rfl
  | cons e rest ih =>
    intro sk x h
    simp only [ingestOk]
    rw [ih _ x (fun e' he' => h e' (List.mem_cons_of_mem _ he'))]
    split
    · simp only [insertKey]
      rw [if_neg (fun hx => h e (List.mem_cons_self _ _) hx.symm)]
    · rfl

theorem ingestOk_mem (P : CryptoPrim) (mkey : Bytes) :
    ∀ (l : List OkEntry) (sk : Str → Option Bytes),
    (l.map OkEntry.h).Nodup →
    ∀ e ∈ l, P.aes_dec mkey (P.ub64dec e.ha) = e.h ++ e.h →
    ingestOk P mkey l sk e.h = some (P.aes_dec mkey (P.ub64dec e.k)) := by
  intro l
  induction l with
  | nil => intro sk _ e he; simp at he
  | cons e0 rest ih =>
    intro sk hnd e he hauth
    have hnd' := hnd
    rw [List.map_cons, List.nodup_cons] at hnd'
    rcases List.mem_cons.mp he with rfl | hmem
    · simp only [ingestOk]
      have hpres : ∀ e' ∈ rest, e'.h ≠ e.h := by
        intro e' he' heq
        exact hnd'.1 (heq ▸ List.mem_map_of_mem OkEntry.h he')
      rw [ingestOk_preserve P mkey rest _ e.h hpres]
      rw [if_pos hauth]
      simp [insertKey]
    · simp only [ingestOk]
      exact ih _ hnd'.2 e hmem hauth

theorem ingestF_preserve (P : CryptoPrim) (win : Bool) (sess : SessData)
    (skeys : Str → Option Bytes) :
    ∀ (l : List NodeData) (m m' : Str → Option Node) (x : Str),
    ingestF P win sess skeys l m = Except.ok m' →
    (∀ d ∈ l, nodeKeyOf d ≠ x) → m' x = m x := by
  intro l
  induction l with
  | nil =>
    intro m m' x h _
    simp only [ingestF, Except.ok.injEq] at h
    rw [← h]
  | cons d rest ih =>
    intro m m' x h hx
    have hx' : ∀ d' ∈ rest, nodeKeyOf d' ≠ x :=
      fun d' hd' => hx d' (List.mem_cons_of_mem _ hd')
    cases himp : importNode P win sess skeys d with
    | error e =>
      simp only [ingestF, himp] at h
      exact absurd h (by simp)
    | ok o =>
      cases o with
      | none =>
        simp only [ingestF, himp] at h
        exact ih _ _ x h hx'
      | some n =>
        simp only [ingestF, himp] at h
        rw [ih _ _ x h hx']
        simp only [insertNode]
        rw [if_neg (fun hf => by
          apply hx d (List.mem_cons_self _ _)
          rw [nodeKeyOf, ← importNode_handle P win sess skeys d n himp, ← hf])]

theorem ingestF_mem (P : CryptoPrim) (win : Bool) (sess : SessData)
    (skeys : Str → Option Bytes) :
    ∀ (l : List NodeData) (m m' : Str → Option Node),
    ingestF P win sess skeys l m = Except.ok m' →
    (l.map nodeKeyOf).Nodup →
    ∀ d ∈ l, ∀ n : Node, importNode P win sess skeys d = Except.ok (some n) →
    m' (nodeKeyOf d) = some n := by
  intro l
  induction l with
  | nil => intro m m' _ _ d hd; simp at hd
  | cons d0 rest ih =>
    intro m m' h hnd d hd n himp
    have hnd' := hnd
    rw [List.map_cons, List.nodup_cons] at hnd'
    rcases List.mem_cons.mp hd with rfl | hmem
    · simp only [ingestF, himp] at h
      have hpres : ∀ d' ∈ rest, nodeKeyOf d' ≠ nodeKeyOf d := by
        intro d' hd' heq
        exact hnd'.1 (heq ▸ List.mem_map_of_mem nodeKeyOf hd')
      rw [ingestF_preserve P win sess skeys rest _ m' (nodeKeyOf d) h hpres]
      simp only [insertNode]
      rw [importNode_handle P win sess skeys d n himp]
      rw [if_pos (show nodeKeyOf d = d.h.getD undefStr from rfl)]
    · cases himp0 : importNode P win sess skeys d0 with
      | error e =>
        simp only [ingestF, himp0] at h
        exact absurd h (by simp)
      | ok o =>
        cases o with
        | none =>
          simp only [ingestF, himp0] at h
          exact ih _ _ h hnd'.2 d hmem n himp
        | some n0 =>
          simp only [ingestF, himp0] at h
          exact ih _ _ h hnd'.2 d hmem n himp

theorem ingestU_preserve :
    ∀ (l : List UEntry) (m : Str → Option Node) (x : Str),
    (∀ v ∈ l, v.c = 1 → v.u ≠ x) → ingestU l m x = m x := by
  intro l
  induction l with
  | nil => intro m x _; rfl
  | cons v0 rest ih =>
    intro m x h
    simp only [ingestU]
    rw [ih _ x (fun v' hv' => h v' (List.mem_cons_of_mem _ hv'))]
    split
    · next hc =>
      simp only [insertNode]
      rw [if_neg (fun hx => h v0 (List.mem_cons_self _ _) hc hx.symm)]
    · rfl

theorem ingestU_mem :
    ∀ (l : List UEntry) (m : Str → Option Node),
    ((l.filter (fun v => decide (v.c = 1))).map UEntry.u).Nodup →
    ∀ v ∈ l, v.c = 1 → ingestU l m v.u = some (contactNode v) := by
  intro l
  induction l with
  | nil => intro m _ v hv; simp at hv
  | cons v0 rest ih =>
    intro m hnd v hv hc
    rcases List.mem_cons.mp hv with rfl | hmem
    · simp only [ingestU]
      rw [List.filter_cons, if_pos (by simpa using hc)] at hnd
      rw [List.map_cons, List.nodup_cons] at hnd
      have hpres : ∀ v' ∈ rest, v'.c = 1 → v'.u ≠ v.u := by
        intro v' hv' hc' heq
        apply hnd.1
        rw [← heq]
        exact List.mem_map_of_mem UEntry.u
          (List.mem_filter.mpr ⟨hv', by simpa using hc'⟩)
      rw [ingestU_preserve rest _ v.u hpres]
      rw [if_pos hc]
      simp [insertNode]
    · simp only [ingestU]
      have hnd2 : ((rest.filter (fun v => decide (v.c = 1))).map UEntry.u).Nodup := by
        rw [List.filter_cons] at hnd
        by_cases hc0 : v0.c = 1
        · rw [if_pos (by simpa using hc0), List.map_cons, List.nodup_cons] at hnd
          exact hnd.2
        · rwa [if_neg (by simpa using hc0)] at hnd
      exact ih _ hnd2 v hmem hc

/-- C3: `Filesystem.load` issues exactly one `fsLoadRequest` RPC (the `f`
call with c 1, r 1, through
the spec-modelled single-call wrapper of the API engine of the session), and on a
successfully handled response it ingests the authenticated `ok` entries as
share keys, stores every `f` entry that `importNode` accepts under its
handle, and adds one contact node per `u` entry with `c == 1`, parented to
`*NETWORK`.  The no-overwrite hypotheses (distinct handles, contacts disjoint
from node handles and from `*NETWORK`) say that the response does not make
one ingested entry shadow another in the handle-keyed JS objects. -/
theorem c3_filesystem_load (P : CryptoPrim) (win : Bool) (sess : SessData)
    (skInit : Str → Option Bytes) (r : FResponse) (st : FsState)
    (hexp : sess.isExportedFolder = false)
    (hrun : fsLoadIngest P win sess skInit r = Except.ok st)
    (hoknd : ((r.ok.getD []).map OkEntry.h).Nodup)
    (hfnd : ((r.f.getD []).map nodeKeyOf).Nodup)
    (hnet : networkStr ∉ (r.f.getD []).map nodeKeyOf)
    (hcnd : (((r.u.getD []).filter (fun v => decide (v.c = 1))).map UEntry.u).Nodup)
    (hfc : ∀ v ∈ r.u.getD [], v.c = 1 → v.u ∉ (r.f.getD []).map nodeKeyOf)
    (hnc : ∀ v ∈ r.u.getD [], v.c = 1 → v.u ≠ networkStr) :
    callSingleRequests fsLoadRequest = [{ a := "f", c := 1, r := 1 }]
    ∧ (∀ e ∈ r.ok.getD [], P.aes_dec sess.mkey (P.ub64dec e.ha) = e.h ++ e.h →
        st.share_keys e.h = some (P.aes_dec sess.mkey (P.ub64dec e.k)))
    ∧ (∀ d ∈ r.f.getD [], ∀ n : Node,
        importNode P win sess st.share_keys d = Except.ok (some n) →
        st.nodes (nodeKeyOf d) = some n)
    ∧ st.nodes networkStr = some networkNode
    ∧ (∀ v ∈ r.u.getD [], v.c = 1 → st.nodes v.u = some (contactNode v)) := by
  have hsk : st.share_keys = okShareKeys P sess.mkey r.ok skInit := by
    unfold fsLoadIngest at hrun
    cases hf : r.f with
    | none =>
      rw [hf] at hrun
      simp only [Except.ok.injEq] at hrun
      rw [← hrun]
    | some fl =>
      rw [hf, hexp] at hrun
      simp only [Bool.false_eq_true, if_false] at hrun
      cases hing : ingestF P win sess (okShareKeys P sess.mkey r.ok skInit) fl
          (insertNode (fun _ => none) topStr topNode) with
      | error e => rw [hing] at hrun; exact absurd hrun (by simp)
      | ok nodes1 =>
        rw [hing] at hrun
        simp only [Except.ok.injEq] at hrun
        rw [← hrun]
  have hshare : ∀ e ∈ r.ok.getD [], P.aes_dec sess.mkey (P.ub64dec e.ha) = e.h ++ e.h →
      st.share_keys e.h = some (P.aes_dec sess.mkey (P.ub64dec e.k)) := by
    intro e he hauth
    rw [hsk]
    cases hok : r.ok with
    | none => rw [hok] at he; simp at he
    | some l =>
      rw [hok] at he hoknd
      simp only [Option.getD_some] at he hoknd
      simp only [okShareKeys]
      exact ingestOk_mem P sess.mkey l skInit hoknd e he hauth
  refine ⟨rfl, hshare, ?_, ?_, ?_⟩ <;>
    [skip; skip; skip] <;> clear hshare
  all_goals
    unfold fsLoadIngest at hrun
  · -- imported f nodes are present
    intro d hd n himp
    rw [hsk] at himp
    cases hf : r.f with
    | none => rw [hf] at hd; simp at hd
    | some fl =>
      rw [hf] at hd hfnd hnet hfc
      simp only [Option.getD_some] at hd hfnd hnet hfc
      rw [hf, hexp] at hrun
      simp only [Bool.false_eq_true, if_false] at hrun
      cases hing : ingestF P win sess (okShareKeys P sess.mkey r.ok skInit) fl
          (insertNode (fun _ => none) topStr topNode) with
      | error e => rw [hing] at hrun; exact absurd hrun (by simp)
      | ok nodes1 =>
        rw [hing] at hrun
        simp only [Except.ok.injEq] at hrun
        cases hrun
        have h1 : nodes1 (nodeKeyOf d) = some n :=
          ingestF_mem P win sess _ fl _ nodes1 hing hfnd d hd n himp
        have h2 : ingestU (r.u.getD []) (insertNode nodes1 networkStr networkNode)
            (nodeKeyOf d) = insertNode nodes1 networkStr networkNode (nodeKeyOf d) := by
          apply ingestU_preserve
          intro v hv hc heq
          exact hfc v hv hc (heq ▸ List.mem_map_of_mem nodeKeyOf hd)
        show ingestU (r.u.getD []) (insertNode nodes1 networkStr networkNode)
          (nodeKeyOf d) = some n
        rw [h2]
        simp only [insertNode]
        rw [if_neg (fun heq : nodeKeyOf d = networkStr =>
          hnet (heq ▸ List.mem_map_of_mem nodeKeyOf hd))]
        exact h1
  · -- the *NETWORK node is present
    have hnetpres : ∀ (m : Str → Option Node),
        ingestU (r.u.getD []) (insertNode m networkStr networkNode) networkStr
          = some networkNode := by
      intro m
      rw [ingestU_preserve _ _ _ (fun v hv hc => hnc v hv hc)]
      simp [insertNode]
    cases hf : r.f with
    | none =>
      rw [hf] at hrun
      simp only [Except.ok.injEq] at hrun
      rw [← hrun]
      exact hnetpres _
    | some fl =>
      rw [hf, hexp] at hrun
      simp only [Bool.false_eq_true, if_false] at hrun
      cases hing : ingestF P win sess (okShareKeys P sess.mkey r.ok skInit) fl
          (insertNode (fun _ => none) topStr topNode) with
      | error e => rw [hing] at hrun; exact absurd hrun (by simp)
      | ok nodes1 =>
        rw [hing] at hrun
        simp only [Except.ok.injEq] at hrun
        rw [← hrun]
        exact hnetpres _
  · -- contact nodes are present
    intro v hv hc
    have hcontact : ∀ (m : Str → Option Node),
        ingestU (r.u.getD []) m v.u = some (contactNode v) :=
      fun m => ingestU_mem (r.u.getD []) m hcnd v hv hc
    cases hf : r.f with
    | none =>
      rw [hf] at hrun
      simp only [Except.ok.injEq] at hrun
      rw [← hrun]
      exact hcontact _
    | some fl =>
      rw [hf, hexp] at hrun
      simp only [Bool.false_eq_true, if_false] at hrun
      cases hing : ingestF P win sess (okShareKeys P sess.mkey r.ok skInit) fl
          (insertNode (fun _ => none) topStr topNode) with
      | error e => rw [hing] at hrun; exact absurd hrun (by simp)
      | ok nodes1 =>
        rw [hing] at hrun
        simp only [Except.ok.injEq] at hrun
        rw [← hrun]
        exact hcontact _

/-- C3 witness: the single RPC and each ingestion conjunct, evaluated on the
concrete response `c3resp`. -/
theorem c3_filesystem_load_witness :
    callSingleRequests fsLoadRequest = [{ a := "f", c := 1, r := 1 }]
    ∧ c3state.share_keys [104] = some [9]
    ∧ c3state.nodes [110] = some c3imported
    ∧ c3state.nodes networkStr = some networkNode
    ∧ c3state.nodes [117, 49] = some (contactNode c3contact) := by
  have h := c3_filesystem_load toyP false sess0 (fun _ => none) c3resp c3state
    rfl rfl (by decide) (by decide) (by decide) (by decide) (by decide) (by decide)
  exact ⟨h.1, h.2.1 c3ok (by decide) (by decide),
    h.2.2.1 c3node (by decide) c3imported rfl,
    h.2.2.2.1,
    h.2.2.2.2 c3contact (by decide) (by decide)⟩

end Megatools
